import Mathlib

/-!
Verification of the caddy-chrome middleware against its specification.

The Go sources are shallowly embedded below.  Stateful code is modelled by
explicit state passing, fallible code returns Option, byte streams written
through io.Writer are modelled as the list of successive Write chunks
(the wire output is their concatenation).
-/

namespace CaddyChrome

/-! ## DOM serializer (src/dom_serializer.go)

The CDP node (chromedp cdp.Node) is modelled with the fields the serializer
reads.  NodeType follows the numeric DOM codes used by cdp:
Element = 1, Text = 3, Comment = 8, Document = 9, DocumentType = 10,
DocumentFragment = 11. -/

inductive Node : Type where
  | mk (nodeType : Nat) (nodeName : String) (localName : String) (nodeValue : String)
      (attributes : List String) (children : List Node) (shadowRoots : List Node)
      (shadowRootType : String) : Node

def Node.nodeType : Node → Nat
  | .mk t _ _ _ _ _ _ _ => t

def Node.nodeName : Node → String
  | .mk _ nn _ _ _ _ _ _ => nn

def Node.localName : Node → String
  | .mk _ _ ln _ _ _ _ _ => ln

def Node.nodeValue : Node → String
  | .mk _ _ _ nv _ _ _ _ => nv

def Node.attributes : Node → List String
  | .mk _ _ _ _ attrs _ _ _ => attrs

def Node.children : Node → List Node
  | .mk _ _ _ _ _ ch _ _ => ch

def Node.shadowRoots : Node → List Node
  | .mk _ _ _ _ _ _ sr _ => sr

def Node.shadowRootType : Node → String
  | .mk _ _ _ _ _ _ _ srt => srt

/-- Serializer state: struct domSerializer has doctypeWritten and noEscape. -/
structure SState where
  doctypeWritten : Bool
  noEscape : Bool
deriving DecidableEq

/-- Go html.EscapeString escapes exactly these five characters. -/
def escCharList (c : Char) : List Char :=
  if c = '&' then "&amp;".data
  else if c = '\'' then "&#39;".data
  else if c = '<' then "&lt;".data
  else if c = '>' then "&gt;".data
  else if c = '"' then "&#34;".data
  else [c]

def escapeChars : List Char → List Char
  | [] => []
  | c :: cs => escCharList c ++ escapeChars cs

/-- Model of Go html.EscapeString. -/
def escapeString (s : String) : String :=
  ⟨escapeChars s.data⟩

/-- The HTML void element set of src/dom_serializer.go. -/
def voidElements : List String :=
  ["area", "base", "br", "col", "embed", "hr", "img", "input", "link", "meta",
   "param", "source", "track", "wbr"]

/-- strings.ToLower, restricted to ASCII (element names are ASCII in scope). -/
def toLowerStr (s : String) : String :=
  ⟨s.data.map Char.toLower⟩

def isVoid (localName : String) : Bool :=
  voidElements.contains (toLowerStr localName)

/-- The attribute loop of serializeElementNode: attributes come in
name/value pairs; an empty value yields a bare name.  The Go loop indexes
i and i+1 and assumes even length (a CDP invariant); the singleton case
mirrors the name write that precedes the out-of-range value access. -/
def attrChunks : List String → List String
  | [] => []
  | [name] => [" ", name]
  | name :: value :: rest =>
      ([" ", name] ++ (if value ≠ "" then ["=\"", escapeString value, "\""] else []))
        ++ attrChunks rest

def nodeTypeElement : Nat := 1
def nodeTypeText : Nat := 3
def nodeTypeDocument : Nat := 9
def nodeTypeDocumentType : Nat := 10
def nodeTypeDocumentFragment : Nat := 11

/-- The start-tag writes of serializeElementNode: an opening angle bracket,
the local name, the attribute chunks, and the tag close, which is a
self-closing slash for void elements. -/
def startTagChunks (ln : String) (attrs : List String) : List String :=
  "<" :: ln :: (attrChunks attrs ++ [if isVoid ln then " />" else ">"])

/-- The end-tag writes of serializeElementNode: nothing for void elements. -/
def endTagChunks (ln : String) : List String :=
  if isVoid ln then [] else ["</", ln, ">"]

/-- The synthesized doctype write of serializeElementNode, emitted only when
doctypeWritten is still false. -/
def dheadChunks (s : SState) : List String :=
  if s.doctypeWritten then [] else ["<!DOCTYPE html>"]

/-- Whether the element gets the noEscape treatment for its children. -/
def isRawTextElement (ln : String) : Prop :=
  ln = "script" ∨ ln = "style"

instance (ln : String) : Decidable (isRawTextElement ln) := by
  unfold isRawTextElement; infer_instance

/-- State after the doctype block of serializeElementNode: the flag is set
if it was not already. -/
def dtSet (s : SState) : SState :=
  if s.doctypeWritten then s else { s with doctypeWritten := true }

/-- State entering the children of an element: noEscape is forced on for
script and style. -/
def childEnterState (ln : String) (s2 : SState) : SState :=
  if isRawTextElement ln then { s2 with noEscape := true } else s2

/-- State after the children of an element: the deferred restore puts back
the saved noEscape for script and style. -/
def childExitState (ln : String) (s2 s3 : SState) : SState :=
  if isRawTextElement ln then { s3 with noEscape := s2.noEscape } else s3

mutual

/-- Model of domSerializer.serializeNode.  Returns none where the Go code
returns an error (unsupported node type, possibly from a recursive call);
otherwise the updated state and the list of chunks written. -/
def serializeNode (s : SState) (n : Node) : Option (SState × List String) :=
  match n with
  | .mk t nn ln nv attrs ch sr _srt =>
    if t = nodeTypeElement then
      match serializeShadowList (dtSet s) sr with
      | none => none
      | some (s2, shadowOut) =>
        match serializeList (childEnterState ln s2) ch with
        | none => none
        | some (s3, childOut) =>
          some (childExitState ln s2 s3, dheadChunks s ++ startTagChunks ln attrs ++ shadowOut
            ++ childOut ++ endTagChunks ln)
    else if t = nodeTypeText then
      some (s, [if s.noEscape then nv else escapeString nv])
    else if t = nodeTypeDocument then
      serializeList s ch
    else if t = nodeTypeDocumentType then
      some ({ s with doctypeWritten := true }, ["<!DOCTYPE ", nn, ">"])
    else if t = nodeTypeDocumentFragment then
      serializeList s ch
    else
      none

/-- Model of domSerializer.serializeChildren: serialize a node list in
order, threading the state, propagating the first error. -/
def serializeList (s : SState) (ns : List Node) : Option (SState × List String) :=
  match ns with
  | [] => some (s, [])
  | n :: rest =>
    match serializeNode s n with
    | none => none
    | some (s1, out1) =>
      match serializeList s1 rest with
      | none => none
      | some (s2, out2) => some (s2, out1 ++ out2)

/-- The shadow-root loop of serializeElementNode: roots whose type is not
open or closed are skipped; the rest are wrapped in a template element with
the shadowrootmode attribute. -/
def serializeShadowList (s : SState) (ns : List Node) : Option (SState × List String) :=
  match ns with
  | [] => some (s, [])
  | n :: rest =>
    if n.shadowRootType ≠ "open" ∧ n.shadowRootType ≠ "closed" then
      serializeShadowList s rest
    else
      match serializeNode s n with
      | none => none
      | some (s1, out1) =>
        match serializeShadowList s1 rest with
        | none => none
        | some (s2, out2) =>
          some (s2, ["<template shadowrootmode=\"", n.shadowRootType, "\">"]
            ++ out1 ++ ["</template>"] ++ out2)

end

/-- Model of domSerializer.Serialize: serialization starts from the zero
value of the struct, so both flags are false. -/
def serialize (root : Node) : Option (List String) :=
  (serializeNode ⟨false, false⟩ root).map (·.2)

/-- Boolean prefix test on character lists, used to classify emitted chunks. -/
def startsChars : List Char → List Char → Bool
  | [], _ => true
  | _ :: _, [] => false
  | p :: ps, c :: cs => p == c && startsChars ps cs

/-- Whether a chunk begins like a markup declaration. -/
def chunkBang (c : String) : Bool :=
  startsChars ['<', '!'] c.data

/-- Whether a chunk begins a doctype. -/
def chunkDoctype (c : String) : Bool :=
  startsChars ['<', '!', 'D', 'O', 'C', 'T', 'Y', 'P', 'E'] c.data

mutual

/-- Well-formedness used for the doctype uniqueness statement: no name,
attribute or text in the subtree starts like a markup declaration, and the
subtree contains no document-type node. -/
def cleanNode : Node → Bool
  | .mk t _ ln nv attrs ch sr _ =>
    !chunkBang ln && !chunkBang nv && attrs.all (fun a => !chunkBang a)
      && !(t = nodeTypeDocumentType) && cleanList ch && cleanList sr

def cleanList : List Node → Bool
  | [] => true
  | n :: rest => cleanNode n && cleanList rest

end

/-- Node types the serializer implements. -/
def supportedType (t : Nat) : Bool :=
  t = nodeTypeElement || t = nodeTypeText || t = nodeTypeDocument
    || t = nodeTypeDocumentType || t = nodeTypeDocumentFragment

mutual

/-- Whether the tree contains a node of unsupported type anywhere (also in
positions the serializer never visits). -/
def hasUnsupported : Node → Bool
  | .mk t _ _ _ _ ch sr _ =>
    !supportedType t || hasUnsupportedList ch || hasUnsupportedList sr

def hasUnsupportedList : List Node → Bool
  | [] => false
  | n :: rest => hasUnsupported n || hasUnsupportedList rest

end

mutual

/-- Whether the serializer traversal reaches a node of unsupported type:
children are always visited except under text and document-type nodes, and
shadow roots are visited only for elements and only when their type is open
or closed. -/
def reachesUnsupported : Node → Bool
  | .mk t _ _ _ _ ch sr _ =>
    if !supportedType t then true
    else if t = nodeTypeElement then
      reachesUnsupportedList ch || reachesUnsupportedShadow sr
    else if t = nodeTypeDocument || t = nodeTypeDocumentFragment then
      reachesUnsupportedList ch
    else
      false

def reachesUnsupportedList : List Node → Bool
  | [] => false
  | n :: rest => reachesUnsupported n || reachesUnsupportedList rest

def reachesUnsupportedShadow : List Node → Bool
  | [] => false
  | n :: rest =>
    (!(n.shadowRootType ≠ "open" ∧ n.shadowRootType ≠ "closed") && reachesUnsupported n)
      || reachesUnsupportedShadow rest

end

/-! ## HTTP headers (net/http Header, as the middleware uses them)

A Go http.Header is a map from canonical header names to value slices.  It
is modelled as an association list with at most one entry per name; Add
appends to the entry of the name or creates it. -/

def Header : Type := List (String × List String)

instance : DecidableEq Header := by
  unfold Header; infer_instance

def headerLookup (h : Header) (name : String) : Option (List String) :=
  match h with
  | [] => none
  | (n, vs) :: rest => if n = name then some vs else headerLookup rest name

/-- The values under a name, empty when absent. -/
def headerValues (h : Header) (name : String) : List String :=
  (headerLookup h name).getD []

/-- Go Header.Add. -/
def headerAdd (h : Header) (name value : String) : Header :=
  match h with
  | [] => [(name, [value])]
  | (n, vs) :: rest =>
    if n = name then (n, vs ++ [value]) :: rest else (n, vs) :: headerAdd rest name value

/-- Go Header.Get: the first value under the name, or the empty string. -/
def headerGet (h : Header) (name : String) : String :=
  match headerLookup h name with
  | some (v :: _) => v
  | _ => ""

/-- Add every value of a slice under one name, as the nested copy loop of
ServeHTTP does. -/
def addValues (acc : Header) (name : String) (vs : List String) : Header :=
  match vs with
  | [] => acc
  | v :: rest => addValues (headerAdd acc name v) name rest

/-- The header names never copied to the client (src/middleware_serve_http.go
skipHeaders). -/
def skipHeaders : List String :=
  ["Accept-Ranges", "Content-Length", "Etag", "Last-Modified", "Vary"]

/-- The copy loop of ServeHTTP over the cloned upstream headers: names in
skipHeaders are dropped, everything else is added value by value.  The
client header map was cleared beforehand, so the fold starts from the empty
header. -/
def copyHeadersAux : List (String × List String) → Header → Header
  | [], acc => acc
  | (n, vs) :: rest, acc =>
    if skipHeaders.contains n then copyHeadersAux rest acc
    else copyHeadersAux rest (addValues acc n vs)

def copyHeadersSkipping (src : Header) : Header :=
  copyHeadersAux src []

/-- Keys of a header are unique: the Go http.Header is a map. -/
def headerKeysNodup (h : Header) : Prop :=
  (h.map Prod.fst).Nodup

instance (h : Header) : Decidable (headerKeysNodup h) := by
  unfold headerKeysNodup; infer_instance

/-! ## CDP resource types and the link set (links.go) -/

inductive ResourceType where
  | document | stylesheet | image | media | font | script | textTrack | xhr | fetchR
  | other
deriving DecidableEq

/-- shouldHandleResourceType of src/middleware_serve_http.go: Script, XHR
and Fetch fall through to true, everything else is false. -/
def shouldHandleResourceType (rt : ResourceType) : Bool :=
  match rt with
  | .script => true
  | .xhr => true
  | .fetchR => true
  | _ => false

/-- Go map assignment m[k] = v. -/
def mapSet (m : List (String × String)) (k v : String) : List (String × String) :=
  match m with
  | [] => [(k, v)]
  | (k', v') :: rest => if k' = k then (k, v) :: rest else (k', v') :: mapSet rest k v

/-- links.AddResource: only font, image, script and stylesheet resources
are recorded, keyed by URL. -/
def linksAddResource (m : List (String × String)) (url : String) (rt : ResourceType) :
    List (String × String) :=
  match rt with
  | .font => mapSet m url "font"
  | .image => mapSet m url "image"
  | .script => mapSet m url "script"
  | .stylesheet => mapSet m url "style"
  | _ => m

/-- links.AddPreconnect. -/
def linksAddPreconnect (m : List (String × String)) (origin : String) :
    List (String × String) :=
  mapSet m origin "preconnect"

/-- The Link header value emitted for one entry of the link set. -/
def linkValueOf (p : String × String) : String :=
  if p.2 = "preconnect" then "<" ++ p.1 ++ ">; rel=preconnect"
  else "<" ++ p.1 ++ ">; rel=preload; as=" ++ p.2

/-- links.MakeHeaders: one Link header per entry.  The Go map iteration
order is arbitrary; the model fixes the list order, which no claim depends
on. -/
def makeHeaders (m : List (String × String)) (h : Header) : Header :=
  match m with
  | [] => h
  | p :: rest => makeHeaders rest (headerAdd h "Link" (linkValueOf p))

/-! ## Media type parsing and the buffering predicate (ServeHTTP) -/

def splitOnChar (sep : Char) : List Char → List (List Char)
  | [] => [[]]
  | c :: cs =>
    match splitOnChar sep cs with
    | [] => [[]]
    | g :: gs => if c = sep then [] :: g :: gs else (c :: g) :: gs

def takeUntilChar (sep : Char) : List Char → List Char
  | [] => []
  | c :: cs => if c = sep then [] else c :: takeUntilChar sep cs

def isSpaceChar (c : Char) : Bool :=
  c = ' ' || c = '\t' || c = '\n' || c = '\r'

def trimChars (l : List Char) : List Char :=
  ((l.dropWhile isSpaceChar).reverse.dropWhile isSpaceChar).reverse

/-- mime tspecials, as in Go mime.isTSpecial. -/
def isTSpecialChar (c : Char) : Bool :=
  ['(', ')', '<', '>', '@', ',', ';', ':', '\\', '"', '/', '[', ']', '?', '='].contains c

/-- Go mime.isTokenChar. -/
def isTokenChar (c : Char) : Bool :=
  0x20 < c.toNat && c.toNat < 0x7f && !isTSpecialChar c

/-- Model of Go mime.ParseMediaType restricted to what ServeHTTP consumes:
the part before the first semicolon is lowercased and trimmed and must be a
token or token slash token, else an error (none).  Parameter validation,
which in Go can additionally turn a syntactically valid media type into an
error, is not modelled; it can only shrink the set of buffered responses
and no claim depends on it.  Lowercasing and trimming are ASCII. -/
def parseMediaType (v : String) : Option String :=
  let base := takeUntilChar ';' v.data
  let mt := trimChars (base.map Char.toLower)
  match splitOnChar '/' mt with
  | [t] =>
    if t ≠ [] ∧ t.all isTokenChar then some ⟨mt⟩ else none
  | [t, sub] =>
    if t ≠ [] ∧ t.all isTokenChar ∧ sub ≠ [] ∧ sub.all isTokenChar then some ⟨mt⟩ else none
  | _ => none

/-- The admission predicate passed to caddyhttp.NewResponseRecorder: buffer
everything when no MIME types are configured, nothing whose Content-Type
fails media-type parsing, and otherwise exactly the configured media
types. -/
def shouldBufferResponse (mimeTypes : List String) (hdr : Header) : Bool :=
  if mimeTypes.isEmpty then true
  else
    match parseMediaType (headerGet hdr "Content-Type") with
    | none => false
    | some mediaType => mimeTypes.any (fun mimeType => mediaType == mimeType)

/-! ## The middleware configuration and the response emitted to the client -/

structure MiddlewareCfg where
  mimeTypes : List String
  fulfillHosts : List String
  continueHosts : List String
  links : Bool
deriving DecidableEq

structure HTTPResponse where
  status : Nat
  header : Header
  body : List Nat
deriving DecidableEq

/-- What the render left behind: the page HTML the driver read back and
the accumulated link set. -/
structure RenderOutcome where
  html : List Nat
  links : List (String × String)
deriving DecidableEq

/-- The bytes of the lowercase doctype line ServeHTTP writes before the
rendered HTML. -/
def doctypeLineBytes : List Nat :=
  "<!doctype html>\n".data.map Char.toNat

/-- The response-emission tail of ServeHTTP for a rewritten response:
clear the client headers, copy the buffered upstream headers minus
skipHeaders, call links.MakeHeaders unconditionally (the Links directive is
not consulted anywhere in ServeHTTP), write the upstream status and the
doctype line followed by the rendered HTML. -/
def emitRewritten (_m : MiddlewareCfg) (upstream : HTTPResponse)
    (render : RenderOutcome) : HTTPResponse :=
  { status := upstream.status,
    header := makeHeaders render.links (copyHeadersSkipping upstream.header),
    body := doctypeLineBytes ++ render.html }

/-- ServeHTTP as seen from the client: when the recorder did not buffer
(the admission predicate said no), the recorder streamed the upstream
response through untouched and ServeHTTP returns before writing anything;
otherwise the rewritten response is emitted. -/
def middlewareRespond (m : MiddlewareCfg) (upstream : HTTPResponse)
    (render : RenderOutcome) : HTTPResponse :=
  if shouldBufferResponse m.mimeTypes upstream.header then emitRewritten m upstream render
  else upstream

/-! ## The interception worker (the requestPaused handler of ServeHTTP) -/

structure URLParts where
  scheme : String
  host : String
deriving DecidableEq

/-- A Fetch.requestPaused event.  parsedURL carries the outcome of
url.Parse(event.Request.URL), which the worker computes first. -/
structure PausedEvent where
  requestID : String
  url : String
  parsedURL : Option URLParts
  resourceType : ResourceType
  hasPostData : Bool
  postData : String
  method : String
  headers : List (String × String)

/-- The three CDP commands the worker can issue for a request id. -/
inductive Verdict where
  | fulfill (id : String) (status : Nat) (responseHeaders : List (String × String))
      (body : String)
  | continueRequest (id : String)
  | failRequest (id : String) (reason : String)
deriving DecidableEq

def Verdict.requestID : Verdict → String
  | .fulfill id _ _ _ => id
  | .continueRequest id => id
  | .failRequest id _ => id

inductive LinkOp where
  | addResource (url : String) (rt : ResourceType)
  | addPreconnect (origin : String)
deriving DecidableEq

/-- Everything one worker does that is visible outside: the CDP verdicts it
issues, whether it cancelled the browser context, and its link-set
updates. -/
structure WorkerResult where
  verdicts : List Verdict
  cancel : Bool
  linkOps : List LinkOp
deriving DecidableEq

structure SubRequest where
  method : String
  url : String
  hasBody : Bool
  body : String
  headers : List (String × String)

/-- Standard base64 (encoding/base64 StdEncoding) over bytes. -/
def base64Table : List Char :=
  "ABCDEFGHIJKLMNOPQRSTUVWXYZabcdefghijklmnopqrstuvwxyz0123456789+/".data

def base64Digit (n : Nat) : Char :=
  base64Table.getD n 'A'

def base64Chars : List Nat → List Char
  | [] => []
  | [a] => [base64Digit (a / 4), base64Digit (a % 4 * 16), '=', '=']
  | [a, b] =>
    [base64Digit (a / 4), base64Digit (a % 4 * 16 + b / 16), base64Digit (b % 16 * 4), '=']
  | a :: b :: c :: rest =>
    [base64Digit (a / 4), base64Digit (a % 4 * 16 + b / 16),
      base64Digit (b % 16 * 4 + c / 64), base64Digit (c % 64)] ++ base64Chars rest

def base64Encode (bs : List Nat) : String :=
  ⟨base64Chars bs⟩

/-- The fulfillRequest payload: source status, the multi-map flattened to
one entry per value, and the base64 body. -/
def flattenHeaders (h : Header) : List (String × String) :=
  h.flatMap (fun p => p.2.map (fun v => (p.1, v)))

def fulfillVerdict (id : String) (res : HTTPResponse) : Verdict :=
  .fulfill id res.status (flattenHeaders res.header) (base64Encode res.body)

/-- Token characters accepted by net/http for a method. -/
def isHTTPTokenChar (c : Char) : Bool :=
  c.isAlpha || c.isDigit || "!#$%&'*+-.^_`|~".data.contains c

/-- http.NewRequestWithContext succeeds on the URL already parsed above;
the only remaining failure the worker can hit is an invalid method (the
empty method defaults to GET). -/
def newRequestOK (method : String) : Bool :=
  method = "" || method.data.all isHTTPTokenChar

def mkSubRequest (ev : PausedEvent) : SubRequest :=
  { method := ev.method, url := ev.url, hasBody := ev.hasPostData, body := ev.postData,
    headers := ev.headers }

/-- The worker spawned for one requestPaused event, translated branch by
branch from src/middleware_serve_http.go lines 104-197.  server stands for
the in-process Caddy handler the sub-request is replayed through; an error
path that calls browserCancel and returns without a verdict is a result
with cancel true and no verdicts. -/
def handleRequestPaused (m : MiddlewareCfg) (rHost navigateURL : String)
    (recorder : HTTPResponse) (server : SubRequest → HTTPResponse)
    (ev : PausedEvent) : WorkerResult :=
  match ev.parsedURL with
  | none =>
    -- url.Parse failed: log, cancel the browser context, return
    { verdicts := [], cancel := true, linkOps := [] }
  | some pausedURL =>
    if ev.url = navigateURL then
      { verdicts := [fulfillVerdict ev.requestID recorder], cancel := false, linkOps := [] }
    else if shouldHandleResourceType ev.resourceType
        && (pausedURL.host == rHost || m.fulfillHosts.contains pausedURL.host) then
      let ops :=
        if pausedURL.host = rHost then [LinkOp.addResource ev.url ev.resourceType]
        else [LinkOp.addPreconnect (pausedURL.scheme ++ "://" ++ pausedURL.host)]
      if newRequestOK ev.method then
        { verdicts := [fulfillVerdict ev.requestID (server (mkSubRequest ev))],
          cancel := false, linkOps := ops }
      else
        -- http.NewRequestWithContext failed: log, cancel, return
        { verdicts := [], cancel := true, linkOps := ops }
    else if shouldHandleResourceType ev.resourceType
        && m.continueHosts.contains pausedURL.host then
      { verdicts := [.continueRequest ev.requestID], cancel := false,
        linkOps := [.addPreconnect (pausedURL.scheme ++ "://" ++ pausedURL.host)] }
    else
      { verdicts := [.failRequest ev.requestID "BlockedByClient"], cancel := false,
        linkOps :=
          if pausedURL.host = rHost then [.addResource ev.url ev.resourceType]
          else [.addPreconnect (pausedURL.scheme ++ "://" ++ pausedURL.host)] }

/-! ## The settlement script (src/js/on_new_document.js) -/

/-- The pendingTask field: either a promise that is already resolved or a
still unresolved one; gen numbers allocations so a new promise is
distinguishable from the old one. -/
inductive PTask where
  | resolvedP (gen : Nat)
  | unresolvedP (gen : Nat)
deriving DecidableEq

structure CCState where
  events : Nat
  pending : Nat
  failed : Nat
  pendingTask : PTask
  gen : Nat
deriving DecidableEq

/-- The synchronous prefix of the pending-task listener, up to the await of
ev.complete: count the event, allocate a fresh unresolved pendingTask when
pending is zero, then increment pending. -/
def onPendingTaskEntry (s : CCState) : CCState :=
  let s1 := { s with events := s.events + 1 }
  let s2 :=
    if s1.pending = 0 then
      { s1 with pendingTask := .unresolvedP (s1.gen + 1), gen := s1.gen + 1 }
    else s1
  { s2 with pending := s2.pending + 1 }

/-- The continuation after ev.complete settles: count a failure on
rejection, decrement pending in the finally block, and when pending is back
to zero settle the stored promise (the returned Bool: true means resolve,
false means reject), reset failed and swap in a fresh resolved
pendingTask. -/
def onPendingTaskComplete (rejected : Bool) (s : CCState) : CCState × Option Bool :=
  let s1 := if rejected then { s with failed := s.failed + 1 } else s
  let s2 := { s1 with pending := s1.pending - 1 }
  if s2.pending = 0 then
    ({ s2 with failed := 0, pendingTask := .resolvedP (s2.gen + 1), gen := s2.gen + 1 },
      some (decide (s2.failed = 0)))
  else (s2, none)

/-! ## Exec flag handling (response.go: UnmarshalCaddyfile and Provision) -/

def intercalateChar (c : Char) : List (List Char) → List Char
  | [] => []
  | [g] => g
  | g :: gs => g ++ c :: intercalateChar c gs

/-- Go strings.SplitN(s, sep, 2) for a one-character separator: at most one
split, at the first occurrence. -/
def splitN2 (sep : Char) (s : String) : List String :=
  match splitOnChar sep s.data with
  | [] => [s]
  | [one] => [⟨one⟩]
  | first :: rest => [⟨first⟩, ⟨intercalateChar sep rest⟩]

/-- The flag conversion of Provision: parts := strings.SplitN(flag, "=", 2)
followed by chromedp.Flag(parts[0], parts[1]).  The index parts[1] is out
of range when the flag contains no equals sign; in Go that is a panic,
modelled as none. -/
def provisionFlag (flag : String) : Option (String × String) :=
  let parts := splitN2 '=' flag
  match parts[0]?, parts[1]? with
  | some name, some value => some (name, value)
  | _, _ => none

def provisionFlags (flags : List String) : Option (List (String × String)) :=
  match flags with
  | [] => some []
  | flag :: rest =>
    match provisionFlag flag, provisionFlags rest with
    | some p, some ps => some (p :: ps)
    | _, _ => none

structure ExecBrowser where
  path : String
  defaultFlags : Bool
  flags : List String
deriving DecidableEq

def strStartsWithDashDash (s : String) : Bool :=
  startsChars ['-', '-'] s.data

/-- The exec and exec_no_default_flags argument loop of UnmarshalCaddyfile:
once a token with a leading double dash is seen all further tokens are
flags, a bare double dash token is discarded, and tokens before the first
flag set the binary path. -/
def unmarshalExecArgs (flagsSeen : Bool) (acc : ExecBrowser) :
    List String → ExecBrowser
  | [] => acc
  | v :: rest =>
    let flagsSeen := if strStartsWithDashDash v then true else flagsSeen
    if v = "--" then unmarshalExecArgs flagsSeen acc rest
    else if flagsSeen then
      unmarshalExecArgs flagsSeen { acc with flags := acc.flags ++ [v] } rest
    else
      unmarshalExecArgs flagsSeen { acc with path := v } rest

def unmarshalExec (defaultFlags : Bool) (args : List String) : ExecBrowser :=
  unmarshalExecArgs false { path := "", defaultFlags := defaultFlags, flags := [] } args

/-! ## Concrete instances used by witnesses and counterexamples -/

/-- The chunks an individual shadow root contributes inside its host, per
the claim: a template wrapper for open and closed roots, nothing for any
other type. -/
def shadowChunksOf (s : SState) (r : Node) : List String :=
  if r.shadowRootType ≠ "open" ∧ r.shadowRootType ≠ "closed" then []
  else ["<template shadowrootmode=\"", r.shadowRootType, "\">"]
    ++ ((serializeNode s r).map (·.2)).getD [] ++ ["</template>"]

/-- A comment node, the example of an unsupported node type. -/
def exCommentNode : Node := .mk 8 "#comment" "" "a comment" [] [] [] ""

/-- A user-agent shadow root containing the comment node. -/
def exUaRootWithComment : Node :=
  .mk 11 "#document-fragment" "" "" [] [exCommentNode] [] "user-agent"

/-- An input element carrying the user-agent shadow root. -/
def exInputNode : Node := .mk 1 "INPUT" "input" "" [] [] [exUaRootWithComment] ""

/-- A document containing a comment node, hidden inside a skipped shadow
root. -/
def exDocWithHiddenComment : Node :=
  .mk 9 "#document" "" "" [] [.mk 1 "HTML" "html" "" [] [exInputNode] [] ""] [] ""

/-- An html element with no attributes, children or shadow roots. -/
def exHtmlNode : Node := .mk 1 "HTML" "html" "" [] [] [] ""

/-- A document whose only child is the html element. -/
def exDocNode : Node := .mk 9 "#document" "" "" [] [exHtmlNode] [] ""

/-- An explicit document-type node named html. -/
def exDoctypeNode : Node := .mk 10 "html" "" "" [] [] [] ""

/-- A document with an explicit doctype before the html element. -/
def exDocNode2 : Node := .mk 9 "#document" "" "" [] [exDoctypeNode, exHtmlNode] [] ""

/-- An element carrying one open and one user-agent shadow root. -/
def exOpenRoot : Node := .mk 11 "#document-fragment" "" "" [] [] [] "open"

def exUaRoot : Node := .mk 11 "#document-fragment" "" "" [] [] [] "user-agent"

def exShadowHost : Node := .mk 1 "DIV" "div" "" [] [] [exOpenRoot, exUaRoot] ""

/-- A text node with a value that needs escaping. -/
def exTextNode : Node := .mk 3 "#text" "" "a<b" [] [] [] ""

/-- The concatenation of every value a source header holds under a name. -/
def srcValues (src : List (String × List String)) (name : String) : List String :=
  match src with
  | [] => []
  | (n, vs) :: rest => (if n = name then vs else []) ++ srcValues rest name

/-- C3 counterexample configuration: the links directive is off. -/
def c3Cfg : MiddlewareCfg :=
  { mimeTypes := ["text/html"], fulfillHosts := [], continueHosts := [], links := false }

def c3Upstream : HTTPResponse :=
  { status := 200, header := [("Content-Type", ["text/html"])], body := [] }

def c3Render : RenderOutcome :=
  { html := [], links := [("http://localhost:9080/links.css", "style")] }

def c2Cfg : MiddlewareCfg :=
  { mimeTypes := ["text/html"], fulfillHosts := [], continueHosts := [], links := false }

def c2Upstream : HTTPResponse :=
  { status := 200, header := [("Content-Type", ["application/json; charset=utf-8"])],
    body := [104, 105] }

def c2Render : RenderOutcome := { html := [60], links := [] }

def c4Upstream : Header :=
  [("Content-Type", ["text/html"]), ("Etag", ["abc"]), ("Vary", ["Accept"]),
    ("X-Custom", ["1", "2"])]

def c4Links : List (String × String) := [("https://cdn.example", "preconnect")]

/-- C1 counterexample event: its URL does not parse, as with a space in the
host, so url.Parse returns an error. -/
def c1BadEvent : PausedEvent :=
  { requestID := "interception-job-1", url := "http://bad host/x", parsedURL := none,
    resourceType := .script, hasPostData := false, postData := "", method := "GET",
    headers := [] }

def c1Cfg : MiddlewareCfg :=
  { mimeTypes := ["text/html"], fulfillHosts := [], continueHosts := [], links := false }

def c1Recorder : HTTPResponse :=
  { status := 200, header := [("Content-Type", ["text/html"])], body := [] }

/-- C1 witness event: a cross-origin image, which lands on the blocked
branch. -/
def c1BlockedEvent : PausedEvent :=
  { requestID := "interception-job-7", url := "https://third.example/img.png",
    parsedURL := some { scheme := "https", host := "third.example" },
    resourceType := .image, hasPostData := false, postData := "", method := "GET",
    headers := [] }

/-- C8 counterexample state: three events counted so far, one pending task
about to complete.  After completion the events counter still reads three,
so the counters are not all reset. -/
def c8State : CCState :=
  { events := 3, pending := 1, failed := 0, pendingTask := .unresolvedP 1, gen := 1 }

/-! ### State lemmas for the serializer -/

theorem dtSet_eq (s : SState) : dtSet s = ⟨true, s.noEscape⟩ := by
  cases s with
  | mk d e => cases d <;> simp [dtSet]

theorem childEnterState_doctypeWritten (ln : String) (s2 : SState) :
    (childEnterState ln s2).doctypeWritten = s2.doctypeWritten := by
  by_cases hraw : isRawTextElement ln <;> simp [childEnterState, hraw]

theorem childExitState_childEnterState (ln : String) (s2 : SState) :
    childExitState ln s2 (childEnterState ln s2) = s2 := by
  cases s2 with
  | mk d e => by_cases hraw : isRawTextElement ln <;> simp [childEnterState, childExitState, hraw]

theorem childExitState_noEscape (ln : String) (s2 s3 : SState)
    (h : s3.noEscape = (childEnterState ln s2).noEscape) :
    (childExitState ln s2 s3).noEscape = s2.noEscape := by
  by_cases hraw : isRawTextElement ln <;>
    simp_all [childEnterState, childExitState, hraw]

theorem childExitState_doctypeWritten (ln : String) (s2 s3 : SState) :
    (childExitState ln s2 s3).doctypeWritten = s3.doctypeWritten := by
  by_cases hraw : isRawTextElement ln <;> simp [childExitState, hraw]

mutual

theorem serializeNode_state : ∀ (s : SState) (n : Node) (s' : SState) (out : List String),
    serializeNode s n = some (s', out) →
    s'.noEscape = s.noEscape ∧ (s.doctypeWritten = true → s' = s)
  | s, .mk t nn ln nv attrs ch sr srt, s', out, h => by
    simp only [serializeNode] at h
    split at h
    · -- element
      split at h
      · exact absurd h (by simp)
      · rename_i s2 shadowOut hsh
        split at h
        · exact absurd h (by simp)
        · rename_i s3 childOut hch
          simp only [Option.some.injEq, Prod.mk.injEq] at h
          obtain ⟨hs', -⟩ := h
          rw [dtSet_eq] at hsh
          have ih2 := serializeShadowList_state _ _ _ _ hsh
          have h2 : s2 = ⟨true, s.noEscape⟩ := ih2.2 rfl
          subst h2
          have ih3 := serializeList_state _ _ _ _ hch
          have h3 : s3 = childEnterState ln ⟨true, s.noEscape⟩ :=
            ih3.2 (by rw [childEnterState_doctypeWritten])
          subst h3
          rw [childExitState_childEnterState] at hs'
          subst hs'
          refine ⟨rfl, fun hdt => ?_⟩
          cases s
          simp_all
    · split at h
      · -- text
        simp only [Option.some.injEq, Prod.mk.injEq] at h
        obtain ⟨hs', -⟩ := h
        subst hs'
        exact ⟨rfl, fun _ => rfl⟩
      · split at h
        · -- document
          exact serializeList_state _ _ _ _ h
        · split at h
          · -- document type
            simp only [Option.some.injEq, Prod.mk.injEq] at h
            obtain ⟨hs', -⟩ := h
            subst hs'
            refine ⟨rfl, fun hdt => ?_⟩
            cases s
            simp_all
          · split at h
            · -- fragment
              exact serializeList_state _ _ _ _ h
            · -- unsupported
              exact absurd h (by simp)

theorem serializeList_state : ∀ (s : SState) (ns : List Node) (s' : SState) (out : List String),
    serializeList s ns = some (s', out) →
    s'.noEscape = s.noEscape ∧ (s.doctypeWritten = true → s' = s)
  | s, [], s', out, h => by
    simp only [serializeList, Option.some.injEq, Prod.mk.injEq] at h
    obtain ⟨hs', -⟩ := h
    subst hs'
    exact ⟨rfl, fun _ => rfl⟩
  | s, n :: rest, s', out, h => by
    simp only [serializeList] at h
    split at h
    · exact absurd h (by simp)
    · rename_i s1 out1 h1
      split at h
      · exact absurd h (by simp)
      · rename_i s2 out2 h2
        simp only [Option.some.injEq, Prod.mk.injEq] at h
        obtain ⟨hs', -⟩ := h
        subst hs'
        have ih1 := serializeNode_state _ _ _ _ h1
        have ih2 := serializeList_state _ _ _ _ h2
        refine ⟨by rw [ih2.1, ih1.1], fun hdt => ?_⟩
        have e1 : s1 = s := ih1.2 hdt
        subst e1
        exact ih2.2 hdt

theorem serializeShadowList_state :
    ∀ (s : SState) (ns : List Node) (s' : SState) (out : List String),
    serializeShadowList s ns = some (s', out) →
    s'.noEscape = s.noEscape ∧ (s.doctypeWritten = true → s' = s)
  | s, [], s', out, h => by
    simp only [serializeShadowList, Option.some.injEq, Prod.mk.injEq] at h
    obtain ⟨hs', -⟩ := h
    subst hs'
    exact ⟨rfl, fun _ => rfl⟩
  | s, n :: rest, s', out, h => by
    simp only [serializeShadowList] at h
    split at h
    · exact serializeShadowList_state _ _ _ _ h
    · split at h
      · exact absurd h (by simp)
      · rename_i s1 out1 h1
        split at h
        · exact absurd h (by simp)
        · rename_i s2 out2 h2
          simp only [Option.some.injEq, Prod.mk.injEq] at h
          obtain ⟨hs', -⟩ := h
          subst hs'
          have ih1 := serializeNode_state _ _ _ _ h1
          have ih2 := serializeShadowList_state _ _ _ _ h2
          refine ⟨by rw [ih2.1, ih1.1], fun hdt => ?_⟩
          have e1 : s1 = s := ih1.2 hdt
          subst e1
          exact ih2.2 hdt

end

/-! ### Chunk classification lemmas -/

theorem chunkDoctype_imp_chunkBang (c : String) (h : chunkDoctype c = true) :
    chunkBang c = true := by
  unfold chunkDoctype at h
  unfold chunkBang
  cases hd : c.data with
  | nil => rw [hd] at h; simp [startsChars] at h
  | cons a l =>
    rw [hd] at h
    cases l with
    | nil => simp [startsChars] at h
    | cons b l2 =>
      simp only [startsChars, Bool.and_eq_true] at h ⊢
      exact ⟨h.1, h.2.1, trivial⟩

theorem chunkBang_of_not (c : String) (h : chunkBang c = false) :
    chunkDoctype c = false := by
  by_contra hc
  rw [Bool.not_eq_false] at hc
  rw [chunkDoctype_imp_chunkBang c hc] at h
  simp at h

theorem chunkBang_escapeString (v : String) : chunkBang (escapeString v) = false := by
  unfold chunkBang escapeString
  cases hd : v.data with
  | nil => rfl
  | cons c cs =>
    show startsChars ['<', '!'] (escapeChars (c :: cs)) = false
    rw [escapeChars]
    unfold escCharList
    by_cases h1 : c = '&'
    · simp [h1, startsChars]
    · by_cases h2 : c = '\''
      · simp [h1, h2, startsChars]
      · by_cases h3 : c = '<'
        · simp [h1, h2, h3, startsChars]
        · by_cases h4 : c = '>'
          · simp [h1, h2, h3, h4, startsChars]
          · by_cases h5 : c = '"'
            · simp [h1, h2, h3, h4, h5, startsChars]
            · simp only [h1, h2, h3, h4, h5, if_false]
              show startsChars ['<', '!'] (c :: escapeChars cs) = false
              simp only [startsChars, Bool.and_eq_false_iff]
              left
              simp
              intro hcontra
              exact h3 hcontra.symm

theorem chunkBang_attrChunks (attrs : List String)
    (hclean : attrs.all (fun a => !chunkBang a) = true) :
    ∀ c ∈ attrChunks attrs, chunkBang c = false := by
  induction attrs using attrChunks.induct with
  | case1 => intro c hc; simp [attrChunks] at hc
  | case2 name =>
    intro c hc
    simp only [attrChunks, List.mem_cons, List.not_mem_nil, or_false] at hc
    simp only [List.all_cons, Bool.and_eq_true, Bool.not_eq_true'] at hclean
    rcases hc with rfl | rfl
    · decide
    · exact hclean.1
  | case3 name value rest ih =>
    intro c hc
    simp only [List.all_cons, Bool.and_eq_true, Bool.not_eq_true'] at hclean
    obtain ⟨hn, hv, hrest⟩ := hclean
    simp only [attrChunks, List.append_assoc, List.mem_append, List.mem_cons,
      List.not_mem_nil, or_false] at hc
    rcases hc with (rfl | rfl) | hc | hc
    · decide
    · exact hn
    · split at hc
      · simp only [List.mem_cons, List.not_mem_nil, or_false] at hc
        rcases hc with rfl | rfl | rfl
        · decide
        · exact chunkBang_escapeString value
        · decide
      · simp at hc
    · exact ih (by simpa using hrest) c hc

theorem chunkBang_startTagChunks (ln : String) (attrs : List String)
    (hln : chunkBang ln = false)
    (hattrs : attrs.all (fun a => !chunkBang a) = true) :
    ∀ c ∈ startTagChunks ln attrs, chunkBang c = false := by
  intro c hc
  simp only [startTagChunks, List.mem_cons, List.mem_append, List.not_mem_nil,
    or_false] at hc
  rcases hc with rfl | rfl | hc | hc
  · decide
  · exact hln
  · exact chunkBang_attrChunks attrs hattrs c hc
  · rw [hc]
    split <;> decide

theorem chunkBang_endTagChunks (ln : String) (hln : chunkBang ln = false) :
    ∀ c ∈ endTagChunks ln, chunkBang c = false := by
  intro c hc
  simp only [endTagChunks] at hc
  split at hc
  · simp at hc
  · simp only [List.mem_cons, List.not_mem_nil, or_false] at hc
    rcases hc with rfl | rfl | rfl
    · decide
    · exact hln
    · decide

/-! ### No further doctype-like chunk is written once the flag is set -/

mutual

theorem serializeNode_bangFree : ∀ (s : SState) (n : Node) (s' : SState) (out : List String),
    s.doctypeWritten = true → cleanNode n = true → serializeNode s n = some (s', out) →
    ∀ c ∈ out, chunkBang c = false
  | s, .mk t nn ln nv attrs ch sr srt, s', out, hdt, hclean, h => by
    simp only [cleanNode, Bool.and_eq_true, Bool.not_eq_true',
      decide_eq_false_iff_not, and_assoc] at hclean
    obtain ⟨hcln, hclnv, hclattrs, hclt, hclch, hclsr⟩ := hclean
    simp only [serializeNode] at h
    split at h
    · -- element
      split at h
      · exact absurd h (by simp)
      · rename_i s2 shadowOut hsh
        split at h
        · exact absurd h (by simp)
        · rename_i s3 childOut hch
          simp only [Option.some.injEq, Prod.mk.injEq] at h
          obtain ⟨-, hout⟩ := h
          rw [dtSet_eq] at hsh
          have h2 : s2 = ⟨true, s.noEscape⟩ :=
            (serializeShadowList_state _ _ _ _ hsh).2 rfl
          subst h2
          intro c hc
          rw [← hout] at hc
          simp only [dheadChunks, hdt, if_true, List.nil_append, List.mem_append] at hc
          rcases hc with ((hc | hc) | hc) | hc
          · exact chunkBang_startTagChunks ln attrs hcln hclattrs c hc
          · exact serializeShadowList_bangFree _ _ _ _ rfl hclsr hsh c hc
          · exact serializeList_bangFree _ _ _ _
              (by rw [childEnterState_doctypeWritten]) hclch hch c hc
          · exact chunkBang_endTagChunks ln hcln c hc
    · split at h
      · -- text
        simp only [Option.some.injEq, Prod.mk.injEq] at h
        obtain ⟨-, hout⟩ := h
        intro c hc
        rw [← hout] at hc
        simp only [List.mem_cons, List.not_mem_nil, or_false] at hc
        subst hc
        split
        · exact hclnv
        · exact chunkBang_escapeString nv
      · split at h
        · -- document
          exact fun c hc => serializeList_bangFree _ _ _ _ hdt hclch h c hc
        · -- the document type branch is closed by split itself via hclt
          split at h
          · -- fragment
            exact fun c hc => serializeList_bangFree _ _ _ _ hdt hclch h c hc
          · exact absurd h (by simp)

theorem serializeList_bangFree : ∀ (s : SState) (ns : List Node) (s' : SState)
    (out : List String),
    s.doctypeWritten = true → cleanList ns = true → serializeList s ns = some (s', out) →
    ∀ c ∈ out, chunkBang c = false
  | s, [], s', out, hdt, hclean, h => by
    simp only [serializeList, Option.some.injEq, Prod.mk.injEq] at h
    obtain ⟨-, hout⟩ := h
    intro c hc
    rw [← hout] at hc
    simp at hc
  | s, n :: rest, s', out, hdt, hclean, h => by
    simp only [cleanList, Bool.and_eq_true] at hclean
    simp only [serializeList] at h
    split at h
    · exact absurd h (by simp)
    · rename_i s1 out1 h1
      split at h
      · exact absurd h (by simp)
      · rename_i s2 out2 h2
        simp only [Option.some.injEq, Prod.mk.injEq] at h
        obtain ⟨-, hout⟩ := h
        have e1 : s1 = s := (serializeNode_state _ _ _ _ h1).2 hdt
        subst e1
        intro c hc
        rw [← hout] at hc
        rcases List.mem_append.mp hc with hc | hc
        · exact serializeNode_bangFree _ _ _ _ hdt hclean.1 h1 c hc
        · exact serializeList_bangFree _ _ _ _ hdt hclean.2 h2 c hc

theorem serializeShadowList_bangFree : ∀ (s : SState) (ns : List Node) (s' : SState)
    (out : List String),
    s.doctypeWritten = true → cleanList ns = true → serializeShadowList s ns = some (s', out) →
    ∀ c ∈ out, chunkBang c = false
  | s, [], s', out, hdt, hclean, h => by
    simp only [serializeShadowList, Option.some.injEq, Prod.mk.injEq] at h
    obtain ⟨-, hout⟩ := h
    intro c hc
    rw [← hout] at hc
    simp at hc
  | s, n :: rest, s', out, hdt, hclean, h => by
    simp only [cleanList, Bool.and_eq_true] at hclean
    simp only [serializeShadowList] at h
    split at h
    · exact serializeShadowList_bangFree _ _ _ _ hdt hclean.2 h
    · rename_i hguard
      split at h
      · exact absurd h (by simp)
      · rename_i s1 out1 h1
        split at h
        · exact absurd h (by simp)
        · rename_i s2 out2 h2
          simp only [Option.some.injEq, Prod.mk.injEq] at h
          obtain ⟨-, hout⟩ := h
          have e1 : s1 = s := (serializeNode_state _ _ _ _ h1).2 hdt
          subst e1
          intro c hc
          rw [← hout] at hc
          simp only [List.append_assoc, List.mem_append, List.mem_cons,
            List.not_mem_nil, or_false] at hc
          rcases hc with (rfl | rfl | rfl) | hc | rfl | hc
          · decide
          · -- the shadow root type chunk is open or closed here
            rw [Classical.not_and_iff_or_not_not] at hguard
            rcases hguard with hguard | hguard
            · rw [Classical.not_not] at hguard
              rw [hguard]
              decide
            · rw [Classical.not_not] at hguard
              rw [hguard]
              decide
          · decide
          · exact serializeNode_bangFree _ _ _ _ hdt hclean.1 h1 c hc
          · decide
          · exact serializeShadowList_bangFree _ _ _ _ hdt hclean.2 h2 c hc

end

/-! ### Shape of a serialized element -/

theorem serializeNode_element (s : SState) (t : Nat) (nn ln nv : String)
    (attrs : List String) (ch sr : List Node) (srt : String) (s' : SState) (out : List String)
    (ht : t = nodeTypeElement)
    (h : serializeNode s (.mk t nn ln nv attrs ch sr srt) = some (s', out)) :
    ∃ shadowOut childOut,
      serializeShadowList ⟨true, s.noEscape⟩ sr = some (⟨true, s.noEscape⟩, shadowOut) ∧
      serializeList (childEnterState ln ⟨true, s.noEscape⟩) ch
        = some (childEnterState ln ⟨true, s.noEscape⟩, childOut) ∧
      s' = ⟨true, s.noEscape⟩ ∧
      out = dheadChunks s ++ startTagChunks ln attrs ++ shadowOut ++ childOut
        ++ endTagChunks ln := by
  subst ht
  simp only [serializeNode, nodeTypeElement, nodeTypeText, nodeTypeDocument,
    nodeTypeDocumentType, nodeTypeDocumentFragment, Nat.reduceEqDiff, if_true, if_false] at h
  split at h
  · exact absurd h (by simp)
  · rename_i s2 shadowOut hsh
    split at h
    · exact absurd h (by simp)
    · rename_i s3 childOut hch
      simp only [Option.some.injEq, Prod.mk.injEq] at h
      obtain ⟨hs', hout⟩ := h
      rw [dtSet_eq] at hsh
      have h2 : s2 = ⟨true, s.noEscape⟩ := (serializeShadowList_state _ _ _ _ hsh).2 rfl
      subst h2
      have h3 : s3 = childEnterState ln ⟨true, s.noEscape⟩ :=
        (serializeList_state _ _ _ _ hch).2 (by rw [childEnterState_doctypeWritten])
      subst h3
      rw [childExitState_childEnterState] at hs'
      exact ⟨shadowOut, childOut, hsh, hch, hs'.symm, hout.symm⟩



theorem serializeShadowList_flatten : ∀ (s : SState) (ns : List Node) (s' : SState)
    (out : List String), s.doctypeWritten = true →
    serializeShadowList s ns = some (s', out) →
    out = (ns.map (shadowChunksOf s)).flatten := by
  intro s ns
  induction ns with
  | nil =>
    intro s' out hdt h
    simp only [serializeShadowList, Option.some.injEq, Prod.mk.injEq] at h
    simp [← h.2]
  | cons n rest ih =>
    intro s' out hdt h
    simp only [serializeShadowList] at h
    split at h
    · rename_i hguard
      have := ih _ _ hdt h
      simp only [List.map_cons, List.flatten_cons, shadowChunksOf, if_pos hguard,
        List.nil_append]
      exact this
    · rename_i hguard
      split at h
      · exact absurd h (by simp)
      · rename_i s1 out1 h1
        split at h
        · exact absurd h (by simp)
        · rename_i s2 out2 h2
          simp only [Option.some.injEq, Prod.mk.injEq] at h
          obtain ⟨-, hout⟩ := h
          have e1 : s1 = s := (serializeNode_state _ _ _ _ h1).2 hdt
          subst e1
          have hrest := ih _ _ hdt h2
          simp only [List.map_cons, List.flatten_cons, shadowChunksOf, if_neg hguard]
          rw [← hout, hrest, h1]
          simp

/-! ### Unsupported node types reachable by the traversal make it fail -/

mutual

theorem serializeNode_unsupported : ∀ (s : SState) (n : Node),
    reachesUnsupported n = true → serializeNode s n = none
  | s, .mk t nn ln nv attrs ch sr srt, hr => by
    simp only [reachesUnsupported] at hr
    split at hr
    · -- the node type itself is unsupported
      rename_i hunsupp
      have hst : supportedType t = false := by
        simpa using hunsupp
      simp only [supportedType, Bool.or_eq_false_iff, decide_eq_false_iff_not,
        and_assoc] at hst
      obtain ⟨h1, h2, h3, h4, h5⟩ := hst
      simp [serializeNode, h1, h2, h3, h4, h5]
    · split at hr
      · -- element
        rename_i hsupp ht
        subst ht
        simp only [Bool.or_eq_true] at hr
        simp only [serializeNode, nodeTypeElement, nodeTypeText, nodeTypeDocument,
          nodeTypeDocumentType, nodeTypeDocumentFragment, Nat.reduceEqDiff,
          if_true, if_false]
        rcases hr with hr | hr
        · rcases hsh : serializeShadowList (dtSet s) sr with _ | p
          · rfl
          · obtain ⟨s2, shadowOut⟩ := p
            dsimp only
            rw [serializeList_unsupported _ _ hr]
        · rw [serializeShadowList_unsupported _ _ hr]
      · split at hr
        · -- document or fragment
          rename_i hsupp hne hdf
          simp only [Bool.or_eq_true, decide_eq_true_eq] at hdf
          rcases hdf with hdoc | hfrag
          · subst hdoc
            simp only [serializeNode, nodeTypeElement, nodeTypeText, nodeTypeDocument,
              nodeTypeDocumentType, nodeTypeDocumentFragment, Nat.reduceEqDiff,
              if_true, if_false]
            exact serializeList_unsupported _ _ hr
          · subst hfrag
            simp only [serializeNode, nodeTypeElement, nodeTypeText, nodeTypeDocument,
              nodeTypeDocumentType, nodeTypeDocumentFragment, Nat.reduceEqDiff,
              if_true, if_false]
            exact serializeList_unsupported _ _ hr
        · simp at hr

theorem serializeList_unsupported : ∀ (s : SState) (ns : List Node),
    reachesUnsupportedList ns = true → serializeList s ns = none
  | s, [], hr => by
    simp [reachesUnsupportedList] at hr
  | s, n :: rest, hr => by
    simp only [reachesUnsupportedList, Bool.or_eq_true] at hr
    simp only [serializeList]
    rcases hr with hr | hr
    · rw [serializeNode_unsupported _ _ hr]
    · rcases h1 : serializeNode s n with _ | p
      · rfl
      · obtain ⟨s1, out1⟩ := p
        dsimp only
        rw [serializeList_unsupported _ _ hr]

theorem serializeShadowList_unsupported : ∀ (s : SState) (ns : List Node),
    reachesUnsupportedShadow ns = true → serializeShadowList s ns = none
  | s, [], hr => by
    simp [reachesUnsupportedShadow] at hr
  | s, n :: rest, hr => by
    simp only [reachesUnsupportedShadow, Bool.or_eq_true, Bool.and_eq_true,
      Bool.not_eq_false'] at hr
    simp only [serializeShadowList]
    split
    · rename_i hguard
      rcases hr with ⟨hcond, -⟩ | hr
      · exact absurd (by exact_mod_cast hcond) (by simpa using hguard)
      · exact serializeShadowList_unsupported _ _ hr
    · rename_i hguard
      rcases hr with ⟨-, hrn⟩ | hr
      · rw [serializeNode_unsupported _ _ hrn]
      · rcases h1 : serializeNode s n with _ | p
        · rfl
        · obtain ⟨s1, out1⟩ := p
          dsimp only
          rw [serializeShadowList_unsupported _ _ hr]

end

theorem serializeShadowList_each : ∀ (s : SState) (ns : List Node) (s' : SState)
    (out : List String), s.doctypeWritten = true →
    serializeShadowList s ns = some (s', out) →
    ∀ r ∈ ns, ¬(r.shadowRootType ≠ "open" ∧ r.shadowRootType ≠ "closed") →
    ∃ inner, serializeNode s r = some (s, inner) := by
  intro s ns
  induction ns with
  | nil => intro s' out hdt h r hr; simp at hr
  | cons n rest ih =>
    intro s' out hdt h r hr hrt
    simp only [serializeShadowList] at h
    rcases List.mem_cons.mp hr with rfl | hr
    · split at h
      · exact absurd ‹_› hrt
      · split at h
        · exact absurd h (by simp)
        · rename_i s1 out1 h1
          have e1 : s1 = s := (serializeNode_state _ _ _ _ h1).2 hdt
          subst e1
          exact ⟨out1, h1⟩
    · split at h
      · exact ih _ _ hdt h r hr hrt
      · split at h
        · exact absurd h (by simp)
        · rename_i s1 out1 h1
          split at h
          · exact absurd h (by simp)
          · rename_i s2 out2 h2
            have e1 : s1 = s := (serializeNode_state _ _ _ _ h1).2 hdt
            subst e1
            exact ih _ _ hdt h2 r hr hrt

theorem childEnterState_eq (ln : String) (ne : Bool) :
    childEnterState ln ⟨true, ne⟩ = ⟨true, if isRawTextElement ln then true else ne⟩ := by
  by_cases hraw : isRawTextElement ln <;> simp [childEnterState, hraw]

/-! ### Claim theorems for the DOM serializer -/

/-- C6: for every element node, the serializer emits each shadow root whose
type is open or closed as a template element with a shadowrootmode attribute
wrapping the recursive serialization of that root, placed after the start
tag and before the children of the host, and every shadow root of any other
type, in particular user-agent, contributes nothing to the output. -/
theorem chrome_serializer_shadow_roots (s : SState) (n : Node) (s' : SState)
    (out : List String) (ht : n.nodeType = nodeTypeElement)
    (h : serializeNode s n = some (s', out)) :
    (∃ childOut,
      out = dheadChunks s ++ startTagChunks n.localName n.attributes
        ++ (n.shadowRoots.map (shadowChunksOf ⟨true, s.noEscape⟩)).flatten
        ++ childOut ++ endTagChunks n.localName)
    ∧ (∀ r ∈ n.shadowRoots, r.shadowRootType = "user-agent" →
        shadowChunksOf ⟨true, s.noEscape⟩ r = [])
    ∧ (∀ r ∈ n.shadowRoots, r.shadowRootType = "open" ∨ r.shadowRootType = "closed" →
        ∃ inner, serializeNode ⟨true, s.noEscape⟩ r = some (⟨true, s.noEscape⟩, inner)
          ∧ shadowChunksOf ⟨true, s.noEscape⟩ r
            = ["<template shadowrootmode=\"", r.shadowRootType, "\">"]
              ++ inner ++ ["</template>"]) := by
  obtain ⟨t, nn, ln, nv, attrs, ch, sr, srt⟩ := n
  simp only [Node.nodeType] at ht
  obtain ⟨shadowOut, childOut, hsh, hch, hs', hout⟩ :=
    serializeNode_element s t nn ln nv attrs ch sr srt s' out ht h
  refine ⟨⟨childOut, ?_⟩, ?_, ?_⟩
  · rw [hout, serializeShadowList_flatten _ _ _ _ rfl hsh]
    simp [Node.localName, Node.attributes, Node.shadowRoots]
  · intro r hr hua
    simp only [Node.shadowRoots] at hr
    simp [shadowChunksOf, hua]
  · intro r hr hoc
    simp only [Node.shadowRoots] at hr
    have hnot : ¬(r.shadowRootType ≠ "open" ∧ r.shadowRootType ≠ "closed") := by
      rcases hoc with hoc | hoc <;> simp [hoc]
    obtain ⟨inner, hinner⟩ := serializeShadowList_each _ _ _ _ rfl hsh r hr hnot
    refine ⟨inner, hinner, ?_⟩
    simp [shadowChunksOf, if_neg hnot, hinner]

/-- C7: a text node is emitted raw exactly when the noEscape flag is set
and entity-escaped otherwise; the children of an element are serialized
with noEscape forced to true when the element is script or style and with
the incoming noEscape otherwise; and serializing any node returns a state
whose noEscape equals the incoming one, so the flag is restored after each
script or style element. -/
theorem chrome_serializer_text_escaping :
    (∀ (s : SState) (n : Node), n.nodeType = nodeTypeText →
      serializeNode s n
        = some (s, [if s.noEscape then n.nodeValue else escapeString n.nodeValue]))
    ∧ (∀ (s : SState) (n : Node) (s' : SState) (out : List String),
        n.nodeType = nodeTypeElement → serializeNode s n = some (s', out) →
        ∃ childOut,
          serializeList ⟨true, if isRawTextElement n.localName then true else s.noEscape⟩
              n.children
            = some (⟨true, if isRawTextElement n.localName then true else s.noEscape⟩,
                childOut))
    ∧ (∀ (s : SState) (n : Node) (s' : SState) (out : List String),
        serializeNode s n = some (s', out) → s'.noEscape = s.noEscape) := by
  refine ⟨?_, ?_, ?_⟩
  · intro s n ht
    obtain ⟨t, nn, ln, nv, attrs, ch, sr, srt⟩ := n
    simp only [Node.nodeType] at ht
    subst ht
    simp [serializeNode, Node.nodeValue, nodeTypeElement, nodeTypeText, nodeTypeDocument,
      nodeTypeDocumentType, nodeTypeDocumentFragment]
  · intro s n s' out ht h
    obtain ⟨t, nn, ln, nv, attrs, ch, sr, srt⟩ := n
    simp only [Node.nodeType] at ht
    obtain ⟨shadowOut, childOut, hsh, hch, hs', hout⟩ :=
      serializeNode_element s t nn ln nv attrs ch sr srt s' out ht h
    rw [childEnterState_eq] at hch
    exact ⟨childOut, by simpa [Node.localName, Node.children] using hch⟩
  · intro s n s' out h
    exact (serializeNode_state _ _ _ _ h).1

theorem serializeNode_element_shape (s : SState) (t : Nat) (nn ln nv : String)
    (attrs : List String) (ch sr : List Node) (srt : String) (s' : SState) (out : List String)
    (ht : t = nodeTypeElement)
    (hclean : cleanNode (.mk t nn ln nv attrs ch sr srt) = true)
    (h : serializeNode s (.mk t nn ln nv attrs ch sr srt) = some (s', out)) :
    ∃ tail, out = dheadChunks s ++ ("<" :: ln :: tail)
      ∧ (∀ c ∈ tail, chunkBang c = false) ∧ chunkBang ln = false := by
  obtain ⟨shadowOut, childOut, hsh, hch, hs', hout⟩ :=
    serializeNode_element s t nn ln nv attrs ch sr srt s' out ht h
  simp only [cleanNode, Bool.and_eq_true, Bool.not_eq_true',
    decide_eq_false_iff_not, and_assoc] at hclean
  obtain ⟨hcln, hclnv, hclattrs, hclt, hclch, hclsr⟩ := hclean
  refine ⟨attrChunks attrs ++ [if isVoid ln then " />" else ">"] ++ shadowOut ++ childOut
    ++ endTagChunks ln, ?_, ?_, hcln⟩
  · rw [hout, startTagChunks]
    simp [List.append_assoc]
  · intro c hc
    simp only [List.append_assoc, List.mem_append, List.mem_cons, List.not_mem_nil,
      or_false] at hc
    rcases hc with hc | hc | hc | hc | hc
    · exact chunkBang_attrChunks attrs hclattrs c hc
    · rw [hc]
      split <;> decide
    · exact serializeShadowList_bangFree _ _ _ _ rfl hclsr hsh c hc
    · exact serializeList_bangFree _ _ _ _ (by rw [childEnterState_doctypeWritten]) hclch
        hch c hc
    · exact chunkBang_endTagChunks ln hcln c hc

/-- C5: serializing a document whose children are an html element, possibly
preceded by an explicit document-type node, yields output that starts with
the doctype, synthesized as DOCTYPE html when absent and taken verbatim
from the node when present, immediately followed by the html start tag, and
exactly one doctype chunk is emitted in the whole document. -/
theorem chrome_serializer_doctype (root d e : Node) (chunks : List String)
    (hroot : root.nodeType = nodeTypeDocument)
    (he : e.nodeType = nodeTypeElement) (hln : e.localName = "html")
    (hclean : cleanNode e = true)
    (h : serialize root = some chunks) :
    (root.children = [e] →
      ∃ tail, chunks = "<!DOCTYPE html>" :: "<" :: "html" :: tail
        ∧ chunks.countP chunkDoctype = 1)
    ∧ (root.children = [d, e] → d.nodeType = nodeTypeDocumentType →
        chunkBang d.nodeName = false →
      ∃ tail, chunks = "<!DOCTYPE " :: d.nodeName :: ">" :: "<" :: "html" :: tail
        ∧ chunks.countP chunkDoctype = 1) := by
  obtain ⟨rt, rnn, rln, rnv, rattrs, rch, rsr, rsrt⟩ := root
  simp only [Node.nodeType, Node.children] at hroot ⊢
  subst hroot
  rcases hsn : serializeNode ⟨false, false⟩
      (.mk nodeTypeDocument rnn rln rnv rattrs rch rsr rsrt) with _ | p
  · rw [serialize, hsn] at h
    simp at h
  · obtain ⟨sEnd, outAll⟩ := p
    rw [serialize, hsn] at h
    simp only [Option.map_some', Option.some.injEq] at h
    subst h
    simp only [serializeNode, nodeTypeElement, nodeTypeText, nodeTypeDocument,
      nodeTypeDocumentType, nodeTypeDocumentFragment, Nat.reduceEqDiff, if_true,
      if_false] at hsn
    obtain ⟨et, enn, eln, env, eattrs, ech, esr, esrt⟩ := e
    simp only [Node.nodeType, Node.localName] at he hln
    subst hln
    constructor
    · -- no explicit doctype node
      intro hch
      subst hch
      simp only [serializeList] at hsn
      split at hsn
      · exact absurd hsn (by simp)
      · rename_i s1 out1 h1
        simp only [Option.some.injEq, Prod.mk.injEq, List.append_nil] at hsn
        obtain ⟨-, houtAll⟩ := hsn
        obtain ⟨tail, htail, hbang, -⟩ :=
          serializeNode_element_shape ⟨false, false⟩ et enn "html" env eattrs ech esr esrt
            s1 out1 he hclean h1
        refine ⟨tail, ?_, ?_⟩
        · rw [← houtAll, htail]
          simp [dheadChunks]
        · rw [← houtAll, htail]
          simp only [dheadChunks, if_false, Bool.false_eq_true, List.cons_append,
            List.nil_append, List.countP_cons]
          have hzero : tail.countP chunkDoctype = 0 :=
            List.countP_eq_zero.mpr (fun c hc => by
              simp [chunkBang_of_not c (hbang c hc)])
          simp [List.countP_cons, hzero]
          decide
    · -- explicit doctype node first
      intro hch hdt hdnn
      subst hch
      obtain ⟨dt, dnn, dln, dnv, dattrs, dch, dsr, dsrt⟩ := d
      simp only [Node.nodeType, Node.nodeName] at hdt hdnn ⊢
      subst hdt
      simp only [serializeList] at hsn
      split at hsn
      · exact absurd hsn (by simp)
      · rename_i s1 out1 h1
        split at hsn
        · exact absurd hsn (by simp)
        · rename_i s2 out2 h2
          simp only [Option.some.injEq, Prod.mk.injEq] at hsn
          obtain ⟨-, houtAll⟩ := hsn
          -- first node is the document type node
          simp only [serializeNode, nodeTypeElement, nodeTypeText, nodeTypeDocument,
            nodeTypeDocumentType, nodeTypeDocumentFragment, Nat.reduceEqDiff, if_true,
            if_false, Option.some.injEq, Prod.mk.injEq] at h1
          obtain ⟨hs1, hout1⟩ := h1
          subst hs1
          -- second node is the html element, with the flag already set
          split at h2
          · exact absurd h2 (by simp)
          · rename_i s3 out3 h3
            simp only [Option.some.injEq, Prod.mk.injEq, List.append_nil] at h2
            obtain ⟨-, hout2⟩ := h2
            obtain ⟨tail, htail, hbang, -⟩ :=
              serializeNode_element_shape ⟨true, false⟩ et enn "html" env eattrs ech esr
                esrt s3 out3 he hclean h3
            refine ⟨tail, ?_, ?_⟩
            · rw [← houtAll, ← hout1, ← hout2, htail]
              simp [dheadChunks]
            · rw [← houtAll, ← hout1, ← hout2, htail]
              have hzero : tail.countP chunkDoctype = 0 :=
                List.countP_eq_zero.mpr (fun c hc => by
                  simp [chunkBang_of_not c (hbang c hc)])
              simp [dheadChunks, List.countP_cons, List.countP_append, hzero,
                chunkBang_of_not dnn hdnn]
              decide

/-- C10 amended: whenever the serializer traversal actually reaches a node
of unsupported type (a node not skipped as a non-open, non-closed shadow
root), serialization of the whole tree returns an error instead of output
with the node omitted. -/
theorem chrome_serializer_unsupported_error (s : SState) (n : Node)
    (hr : reachesUnsupported n = true) :
    serializeNode s n = none ∧ serialize n = none := by
  refine ⟨serializeNode_unsupported s n hr, ?_⟩
  rw [serialize, serializeNode_unsupported _ n hr]
  rfl



/-- C10 counterexample: a tree that contains a comment node serializes
successfully, with the node omitted, because the node sits inside a
user-agent shadow root that the serializer skips, so the claim as stated
over every tree containing such a node is false. -/
theorem chrome_serializer_unsupported_cex :
    hasUnsupported exDocWithHiddenComment = true
    ∧ serialize exDocWithHiddenComment
      = some ["<!DOCTYPE html>", "<", "html", ">", "<", "input", " />", "</", "html", ">"] := by
  constructor
  · simp +decide [hasUnsupported, hasUnsupportedList, supportedType,
      exDocWithHiddenComment, exInputNode, exUaRootWithComment, exCommentNode,
      nodeTypeElement, nodeTypeText, nodeTypeDocument, nodeTypeDocumentType,
      nodeTypeDocumentFragment]
  · simp +decide [serialize, serializeNode, serializeList, serializeShadowList, attrChunks,
      isVoid, toLowerStr, voidElements, nodeTypeElement, nodeTypeText, nodeTypeDocument,
      nodeTypeDocumentType, nodeTypeDocumentFragment, Node.shadowRootType, dtSet,
      childEnterState, childExitState, dheadChunks, startTagChunks, endTagChunks,
      isRawTextElement, exDocWithHiddenComment, exInputNode, exUaRootWithComment,
      exCommentNode]

/-- Witness for the amended C10 theorem at a concrete reachable comment. -/
theorem chrome_serializer_unsupported_error_witness :
    reachesUnsupported exCommentNode = true
    ∧ serializeNode ⟨false, false⟩ exCommentNode = none :=
  ⟨by simp +decide [reachesUnsupported, supportedType, exCommentNode, nodeTypeElement,
      nodeTypeText, nodeTypeDocument, nodeTypeDocumentType, nodeTypeDocumentFragment],
    (chrome_serializer_unsupported_error ⟨false, false⟩ exCommentNode
      (by simp +decide [reachesUnsupported, supportedType, exCommentNode, nodeTypeElement,
        nodeTypeText, nodeTypeDocument, nodeTypeDocumentType,
        nodeTypeDocumentFragment])).1⟩



/-- Witness for C5 at a concrete document without an explicit doctype. -/
theorem chrome_serializer_doctype_witness :
    cleanNode exHtmlNode = true
    ∧ serialize exDocNode = some ["<!DOCTYPE html>", "<", "html", ">", "</", "html", ">"]
    ∧ ∃ tail, ["<!DOCTYPE html>", "<", "html", ">", "</", "html", ">"]
        = "<!DOCTYPE html>" :: "<" :: "html" :: tail
      ∧ (["<!DOCTYPE html>", "<", "html", ">", "</", "html", ">"]).countP chunkDoctype
          = 1 := by
  have hclean : cleanNode exHtmlNode = true := by
    simp +decide [cleanNode, cleanList, chunkBang, startsChars, exHtmlNode,
      nodeTypeDocumentType]
  have hser : serialize exDocNode
      = some ["<!DOCTYPE html>", "<", "html", ">", "</", "html", ">"] := by
    simp +decide [serialize, serializeNode, serializeList, serializeShadowList, attrChunks,
      isVoid, toLowerStr, voidElements, nodeTypeElement, nodeTypeText, nodeTypeDocument,
      nodeTypeDocumentType, nodeTypeDocumentFragment, dtSet, childEnterState,
      childExitState, dheadChunks, startTagChunks, endTagChunks, isRawTextElement,
      exDocNode, exHtmlNode]
  exact ⟨hclean, hser,
    (chrome_serializer_doctype exDocNode exDoctypeNode exHtmlNode _ rfl rfl rfl hclean
      hser).1 rfl⟩



/-- Witness for C6 at a concrete host with an open and a user-agent root. -/
theorem chrome_serializer_shadow_roots_witness :
    exShadowHost.nodeType = nodeTypeElement
    ∧ serializeNode ⟨true, false⟩ exShadowHost
      = some (⟨true, false⟩, ["<", "div", ">", "<template shadowrootmode=\"", "open", "\">",
          "</template>", "</", "div", ">"])
    ∧ (∃ childOut, ["<", "div", ">", "<template shadowrootmode=\"", "open", "\">",
          "</template>", "</", "div", ">"]
        = dheadChunks ⟨true, false⟩
          ++ startTagChunks exShadowHost.localName exShadowHost.attributes
          ++ (exShadowHost.shadowRoots.map (shadowChunksOf ⟨true, false⟩)).flatten
          ++ childOut ++ endTagChunks exShadowHost.localName)
    ∧ (∀ r ∈ exShadowHost.shadowRoots, r.shadowRootType = "user-agent" →
        shadowChunksOf ⟨true, false⟩ r = []) := by
  have hser : serializeNode ⟨true, false⟩ exShadowHost
      = some (⟨true, false⟩, ["<", "div", ">", "<template shadowrootmode=\"", "open", "\">",
          "</template>", "</", "div", ">"]) := by
    simp +decide [serializeNode, serializeList, serializeShadowList, attrChunks,
      isVoid, toLowerStr, voidElements, nodeTypeElement, nodeTypeText, nodeTypeDocument,
      nodeTypeDocumentType, nodeTypeDocumentFragment, Node.shadowRootType, dtSet,
      childEnterState, childExitState, dheadChunks, startTagChunks, endTagChunks,
      isRawTextElement, exShadowHost, exOpenRoot, exUaRoot]
  have happ := chrome_serializer_shadow_roots ⟨true, false⟩ exShadowHost ⟨true, false⟩
    ["<", "div", ">", "<template shadowrootmode=\"", "open", "\">", "</template>",
      "</", "div", ">"] rfl hser
  exact ⟨rfl, hser, happ.1, happ.2.1⟩



/-- Witness for C7: the text node is escaped when noEscape is false and
raw when it is true, and the element part applies to a script element. -/
theorem chrome_serializer_text_escaping_witness :
    serializeNode ⟨false, false⟩ exTextNode
      = some (⟨false, false⟩,
          [if (⟨false, false⟩ : SState).noEscape then exTextNode.nodeValue
            else escapeString exTextNode.nodeValue])
    ∧ serializeNode ⟨false, true⟩ exTextNode
      = some (⟨false, true⟩,
          [if (⟨false, true⟩ : SState).noEscape then exTextNode.nodeValue
            else escapeString exTextNode.nodeValue])
    ∧ escapeString "a<b" = "a&lt;b" := by
  refine ⟨chrome_serializer_text_escaping.1 ⟨false, false⟩ exTextNode rfl,
    chrome_serializer_text_escaping.1 ⟨false, true⟩ exTextNode rfl, ?_⟩
  decide

/-! ### Header copy and Link emission lemmas -/

theorem headerValues_headerAdd (h : Header) (n v name : String) :
    headerValues (headerAdd h n v) name
      = headerValues h name ++ (if n = name then [v] else []) := by
  induction h with
  | nil =>
    by_cases hn : n = name <;>
      simp [headerAdd, headerValues, headerLookup, hn]
  | cons p rest ih =>
    obtain ⟨k, vs⟩ := p
    by_cases hk : k = n
    · subst hk
      by_cases hname : k = name <;>
        simp [headerAdd, headerValues, headerLookup, hname]
    · by_cases hname : k = name
      · subst hname
        have hn : ¬ n = k := fun hc => hk hc.symm
        simp [headerAdd, headerValues, headerLookup, hk, hn]
      · simp [headerAdd, headerValues, headerLookup, hk, hname] at ih ⊢
        exact ih

theorem headerValues_addValues (vs : List String) (acc : Header) (n name : String) :
    headerValues (addValues acc n vs) name
      = headerValues acc name ++ (if n = name then vs else []) := by
  induction vs generalizing acc with
  | nil => simp [addValues]
  | cons v rest ih =>
    rw [addValues, ih, headerValues_headerAdd]
    by_cases hn : n = name <;> simp [hn]

theorem headerValues_makeHeaders (m : List (String × String)) (h : Header) (name : String) :
    headerValues (makeHeaders m h) name
      = headerValues h name ++ (if name = "Link" then m.map linkValueOf else []) := by
  induction m generalizing h with
  | nil => simp [makeHeaders]
  | cons p rest ih =>
    rw [makeHeaders, ih, headerValues_headerAdd]
    by_cases hn : name = "Link"
    · subst hn
      simp
    · have : ¬ "Link" = name := fun hc => hn hc.symm
      simp [hn, this]



theorem headerValues_copyAux (src : List (String × List String)) (acc : Header)
    (name : String) :
    headerValues (copyHeadersAux src acc) name
      = headerValues acc name
        ++ (if skipHeaders.contains name then [] else srcValues src name) := by
  induction src generalizing acc with
  | nil => simp [copyHeadersAux, srcValues]
  | cons p rest ih =>
    obtain ⟨n, vs⟩ := p
    by_cases hname : name ∈ skipHeaders
    · by_cases hskip : skipHeaders.contains n = true
      · rw [copyHeadersAux, if_pos hskip, ih]
        simp [hname]
      · rw [copyHeadersAux, if_neg hskip, ih, headerValues_addValues]
        have hne : ¬ n = name := fun hc => by
          rw [hc] at hskip
          exact hskip (by simpa using hname)
        simp [hname, hne]
    · by_cases hskip : skipHeaders.contains n = true
      · rw [copyHeadersAux, if_pos hskip, ih]
        have hne : ¬ n = name := fun hc => by
          rw [hc] at hskip
          exact hname (by simpa using hskip)
        simp [hname, srcValues, hne]
      · rw [copyHeadersAux, if_neg hskip, ih, headerValues_addValues]
        simp [hname, srcValues]

theorem srcValues_nil_of_not_mem (rest : List (String × List String)) (name : String)
    (h : name ∉ rest.map Prod.fst) : srcValues rest name = [] := by
  induction rest with
  | nil => rfl
  | cons p r ih =>
    obtain ⟨n, vs⟩ := p
    simp only [List.map_cons, List.mem_cons] at h
    push_neg at h
    have hne : ¬ n = name := fun hc => h.1 hc.symm
    simp [srcValues, hne, ih h.2]

theorem srcValues_eq_headerValues (src : Header) (name : String)
    (hnd : headerKeysNodup src) :
    srcValues src name = headerValues src name := by
  induction src with
  | nil => simp [srcValues, headerValues, headerLookup]
  | cons p rest ih =>
    obtain ⟨n, vs⟩ := p
    simp only [headerKeysNodup, List.map_cons, List.nodup_cons] at hnd
    obtain ⟨hnotin, hnd2⟩ := hnd
    by_cases hn : n = name
    · subst hn
      have hrest : srcValues rest n = [] := srcValues_nil_of_not_mem rest n hnotin
      simp [srcValues, headerValues, headerLookup, hrest]
    · simp only [srcValues, headerValues, headerLookup, hn, if_false, List.nil_append]
      simpa [headerValues] using ih hnd2

/-! ### Claim theorems for the middleware response path -/

/-- C2: when the configured MIME type list is nonempty, as it always is
after Provision, and the upstream Content-Type either fails media-type
parsing or parses to a media type matching none of the configured entries,
the recorder never buffers and the response the client sees is the
upstream response unchanged in status, headers and body. -/
theorem chrome_mime_passthrough (m : MiddlewareCfg) (upstream : HTTPResponse)
    (render : RenderOutcome) (hne : m.mimeTypes ≠ [])
    (hmatch : ∀ mt, parseMediaType (headerGet upstream.header "Content-Type") = some mt →
      mt ∉ m.mimeTypes) :
    middlewareRespond m upstream render = upstream := by
  have hb : shouldBufferResponse m.mimeTypes upstream.header = false := by
    rw [shouldBufferResponse, if_neg (by simpa using hne)]
    rcases hp : parseMediaType (headerGet upstream.header "Content-Type") with _ | mt
    · rfl
    · have hnot := hmatch mt hp
      dsimp only
      rw [List.any_eq_false]
      intro x hx
      simp only [beq_iff_eq]
      intro hc
      exact hnot (hc ▸ hx)
  rw [middlewareRespond, if_neg (by simp [hb])]



/-- C3 counterexample: with the links directive disabled, a rewritten
response still carries the accumulated Link header, so emission is not
gated by the directive. -/
theorem chrome_links_gating_cex :
    c3Cfg.links = false
    ∧ headerValues (middlewareRespond c3Cfg c3Upstream c3Render).header "Link"
      = ["<http://localhost:9080/links.css>; rel=preload; as=style"] := by
  constructor
  · rfl
  · decide

/-- C3 corrected: ServeHTTP never consults the Links field, so the emitted
response is the same for any value of the directive, and every rewritten
response carries one Link header per link-set entry appended after the
copied upstream headers. -/
theorem chrome_links_unconditional (m : MiddlewareCfg) (b1 b2 : Bool)
    (upstream : HTTPResponse) (render : RenderOutcome) :
    middlewareRespond { m with links := b1 } upstream render
      = middlewareRespond { m with links := b2 } upstream render
    ∧ (shouldBufferResponse m.mimeTypes upstream.header = true →
      headerValues (middlewareRespond m upstream render).header "Link"
        = headerValues (copyHeadersSkipping upstream.header) "Link"
          ++ render.links.map linkValueOf) := by
  constructor
  · rfl
  · intro hb
    rw [middlewareRespond, if_pos (by simp [hb]), emitRewritten]
    simpa using headerValues_makeHeaders render.links (copyHeadersSkipping upstream.header)
      "Link"

/-- C4: on the rewritten path the client headers are rebuilt from scratch:
every name in the skip set ends with no values at all, every other
upstream name keeps exactly its upstream values, and the Link name
additionally receives the link-set hints after any upstream Link values. -/
theorem chrome_header_stripping (upstream : Header) (ls : List (String × String))
    (name : String) (hnd : headerKeysNodup upstream) :
    (skipHeaders.contains name = true →
      headerValues (makeHeaders ls (copyHeadersSkipping upstream)) name = [])
    ∧ (skipHeaders.contains name = false → name ≠ "Link" →
      headerValues (makeHeaders ls (copyHeadersSkipping upstream)) name
        = headerValues upstream name)
    ∧ (skipHeaders.contains name = false → name = "Link" →
      headerValues (makeHeaders ls (copyHeadersSkipping upstream)) name
        = headerValues upstream name ++ ls.map linkValueOf) := by
  have hcopy : ∀ nm : String, headerValues (copyHeadersSkipping upstream) nm
      = (if skipHeaders.contains nm = true then [] else srcValues upstream nm) := by
    intro nm
    rw [copyHeadersSkipping, headerValues_copyAux]
    simp [headerValues, headerLookup]
  have hmk := headerValues_makeHeaders ls (copyHeadersSkipping upstream) name
  refine ⟨?_, ?_, ?_⟩
  · intro hskip
    have hnl : name ≠ "Link" := by
      intro hc
      rw [hc] at hskip
      simp [skipHeaders] at hskip
    rw [hmk, if_neg hnl, hcopy, if_pos hskip]
    simp
  · intro hskip hnl
    rw [hmk, if_neg hnl, hcopy, if_neg (by rw [hskip]; simp),
      srcValues_eq_headerValues upstream name hnd]
    simp
  · intro hskip hl
    subst hl
    rw [hmk, if_pos rfl, hcopy, if_neg (by rw [hskip]; simp),
      srcValues_eq_headerValues upstream "Link" hnd]



/-- Witness for C2 at a concrete JSON response under the default text/html
configuration. -/
theorem chrome_mime_passthrough_witness :
    c2Cfg.mimeTypes ≠ []
    ∧ parseMediaType (headerGet c2Upstream.header "Content-Type") = some "application/json"
    ∧ middlewareRespond c2Cfg c2Upstream c2Render = c2Upstream := by
  refine ⟨by decide, by decide, ?_⟩
  refine chrome_mime_passthrough c2Cfg c2Upstream c2Render (by decide) ?_
  intro mt hmt
  have hp : parseMediaType (headerGet c2Upstream.header "Content-Type")
      = some "application/json" := by decide
  rw [hp] at hmt
  injection hmt with h
  subst h
  decide

/-- Witness for the corrected C3 theorem at the counterexample inputs. -/
theorem chrome_links_unconditional_witness :
    shouldBufferResponse c3Cfg.mimeTypes c3Upstream.header = true
    ∧ headerValues (middlewareRespond c3Cfg c3Upstream c3Render).header "Link"
      = headerValues (copyHeadersSkipping c3Upstream.header) "Link"
        ++ c3Render.links.map linkValueOf :=
  ⟨by decide,
    (chrome_links_unconditional c3Cfg false false c3Upstream c3Render).2 (by decide)⟩



/-- Witness for C4 at a concrete upstream header set. -/
theorem chrome_header_stripping_witness :
    headerKeysNodup c4Upstream
    ∧ headerValues (makeHeaders c4Links (copyHeadersSkipping c4Upstream)) "Etag" = []
    ∧ headerValues (makeHeaders c4Links (copyHeadersSkipping c4Upstream)) "X-Custom"
      = ["1", "2"]
    ∧ headerValues (makeHeaders c4Links (copyHeadersSkipping c4Upstream)) "Link"
      = headerValues c4Upstream "Link" ++ c4Links.map linkValueOf := by
  have hnd : headerKeysNodup c4Upstream := by decide
  refine ⟨hnd, ?_, ?_, ?_⟩
  · exact (chrome_header_stripping c4Upstream c4Links "Etag" hnd).1 (by decide)
  · have h := (chrome_header_stripping c4Upstream c4Links "X-Custom" hnd).2.1 (by decide)
      (by decide)
    rw [h]
    decide
  · exact (chrome_header_stripping c4Upstream c4Links "Link" hnd).2.2 (by decide) rfl

/-! ### Claim theorems for the interception worker -/

/-- C1 corrected: every classification branch whose internal steps succeed
issues exactly one verdict, carrying the request id of the event; when URL
parsing fails, and when sub-request construction fails on the fulfill
branch, the worker issues no verdict at all and cancels the browser context
instead. -/
theorem chrome_router_verdict (m : MiddlewareCfg) (rHost navigateURL : String)
    (recorder : HTTPResponse) (server : SubRequest → HTTPResponse) (ev : PausedEvent) :
    (∀ u, ev.parsedURL = some u → newRequestOK ev.method = true →
      ∃ v, (handleRequestPaused m rHost navigateURL recorder server ev).verdicts = [v]
        ∧ v.requestID = ev.requestID
        ∧ (handleRequestPaused m rHost navigateURL recorder server ev).cancel = false)
    ∧ (ev.parsedURL = none →
      (handleRequestPaused m rHost navigateURL recorder server ev).verdicts = []
      ∧ (handleRequestPaused m rHost navigateURL recorder server ev).cancel = true)
    ∧ (∀ u, ev.parsedURL = some u → newRequestOK ev.method = false →
      ev.url ≠ navigateURL →
      (shouldHandleResourceType ev.resourceType
        && (u.host == rHost || m.fulfillHosts.contains u.host)) = true →
      (handleRequestPaused m rHost navigateURL recorder server ev).verdicts = []
      ∧ (handleRequestPaused m rHost navigateURL recorder server ev).cancel = true) := by
  refine ⟨?_, ?_, ?_⟩
  · intro u hu hok
    simp only [handleRequestPaused, hu]
    by_cases h1 : ev.url = navigateURL
    · rw [if_pos h1]
      exact ⟨_, rfl, rfl, rfl⟩
    · rw [if_neg h1]
      by_cases h2 : (shouldHandleResourceType ev.resourceType
          && (u.host == rHost || m.fulfillHosts.contains u.host)) = true
      · rw [if_pos h2, if_pos hok]
        exact ⟨_, rfl, rfl, rfl⟩
      · rw [if_neg h2]
        by_cases h3 : (shouldHandleResourceType ev.resourceType
            && m.continueHosts.contains u.host) = true
        · rw [if_pos h3]
          exact ⟨_, rfl, rfl, rfl⟩
        · rw [if_neg h3]
          exact ⟨_, rfl, rfl, rfl⟩
  · intro hn
    simp [handleRequestPaused, hn]
  · intro u hu hbad h1 h2
    simp only [handleRequestPaused, hu]
    rw [if_neg h1, if_pos h2, if_neg (by rw [hbad]; simp)]
    exact ⟨rfl, rfl⟩



/-- C1 counterexample: on the URL-parse-error path the worker issues no
verdict at all for the paused request, contradicting the claim that every
internal error path still issues exactly one of the three commands. -/
theorem chrome_router_verdict_cex :
    c1BadEvent.parsedURL = none
    ∧ (handleRequestPaused c1Cfg "example.com" "http://example.com/" c1Recorder
        (fun _ => { status := 200, header := [], body := [] }) c1BadEvent).verdicts = []
    ∧ (handleRequestPaused c1Cfg "example.com" "http://example.com/" c1Recorder
        (fun _ => { status := 200, header := [], body := [] }) c1BadEvent).cancel
      = true :=
  ⟨rfl, rfl, rfl⟩



/-- Witness for the corrected C1 theorem at the blocked branch. -/
theorem chrome_router_verdict_witness :
    c1BlockedEvent.parsedURL = some { scheme := "https", host := "third.example" }
    ∧ newRequestOK "GET" = true
    ∧ ∃ v, (handleRequestPaused c1Cfg "example.com" "http://example.com/" c1Recorder
        (fun _ => { status := 200, header := [], body := [] }) c1BlockedEvent).verdicts
          = [v]
      ∧ v.requestID = c1BlockedEvent.requestID
      ∧ (handleRequestPaused c1Cfg "example.com" "http://example.com/" c1Recorder
          (fun _ => { status := 200, header := [], body := [] }) c1BlockedEvent).cancel
        = false :=
  ⟨rfl, by decide,
    (chrome_router_verdict c1Cfg "example.com" "http://example.com/" c1Recorder
      (fun _ => { status := 200, header := [], body := [] }) c1BlockedEvent).1
      { scheme := "https", host := "third.example" } rfl (by decide)⟩

/-! ### Claim theorems for the settlement script -/



/-- C8 counterexample: when pending returns to zero the settlement resets
failed and swaps the promise, but the events counter keeps its value, so
the claim that the counters are reset is false on the code. -/
theorem chrome_settlement_cex :
    (onPendingTaskComplete false c8State).1.events = 3
    ∧ ¬ (onPendingTaskComplete false c8State).1.events = 0
    ∧ (onPendingTaskComplete false c8State).2 = some true
    ∧ (onPendingTaskComplete false c8State).1.failed = 0 := by
  decide

/-- C8 corrected: the entry half of the listener allocates a fresh
unresolved pendingTask exactly on the pending zero-to-one transition; the
completion half, when pending returns to zero, settles the stored promise,
resolving exactly when no completion in the batch failed, resets the failed
counter, and swaps in a fresh resolved promise; events is never reset and
pending is left at zero. -/
theorem chrome_settlement (s : CCState) (rejected : Bool) :
    (s.pending = 0 → onPendingTaskEntry s
      = { s with
          events := s.events + 1
          pending := 1
          pendingTask := .unresolvedP (s.gen + 1)
          gen := s.gen + 1 })
    ∧ (s.pending ≠ 0 → onPendingTaskEntry s
      = { s with events := s.events + 1, pending := s.pending + 1 })
    ∧ (s.pending = 1 → onPendingTaskComplete rejected s
      = ({ s with
            pending := 0
            failed := 0
            pendingTask := .resolvedP (s.gen + 1)
            gen := s.gen + 1 },
          some (decide (s.failed + (if rejected then 1 else 0) = 0))))
    ∧ (2 ≤ s.pending → onPendingTaskComplete rejected s
      = ({ s with
            pending := s.pending - 1
            failed := s.failed + (if rejected then 1 else 0) }, none)) := by
  obtain ⟨ev, pe, fa, ta, ge⟩ := s
  refine ⟨?_, ?_, ?_, ?_⟩
  · intro hp
    simp only at hp
    subst hp
    simp [onPendingTaskEntry]
  · intro hp
    simp only at hp
    simp [onPendingTaskEntry, hp]
  · intro hp
    simp only at hp
    subst hp
    cases rejected <;> simp [onPendingTaskComplete]
  · intro hp
    simp only at hp
    have h1 : ¬ (pe - 1 = 0) := by omega
    cases rejected <;> simp [onPendingTaskComplete, h1]

/-- Witness for the corrected C8 theorem at concrete states. -/
theorem chrome_settlement_witness :
    (onPendingTaskEntry ⟨0, 0, 0, .resolvedP 0, 0⟩
      = ⟨1, 1, 0, .unresolvedP 1, 1⟩)
    ∧ (onPendingTaskComplete true ⟨2, 1, 0, .unresolvedP 1, 1⟩
      = (⟨2, 0, 0, .resolvedP 2, 2⟩, some false)) := by
  constructor
  · have h := (chrome_settlement ⟨0, 0, 0, .resolvedP 0, 0⟩ false).1 rfl
    simpa using h
  · have h := (chrome_settlement ⟨2, 1, 0, .unresolvedP 1, 1⟩ true).2.2.1 rfl
    simpa using h

/-! ### Claim theorem for exec flag provisioning -/

/-- C9: the code is wrong where the claim says the indexing stays in
bounds: the Caddyfile parser stores the token of a flag such as headless
as a flag, and Provision indexes parts one of a one-element split, a panic
in Go.  Flags that do contain an equals sign convert fine. -/
theorem chrome_exec_flag_panic :
    (unmarshalExec true ["/usr/bin/chrome", "--headless"]).flags = ["--headless"]
    ∧ (unmarshalExec true ["/usr/bin/chrome", "--headless"]).path = "/usr/bin/chrome"
    ∧ splitN2 '=' "--headless" = ["--headless"]
    ∧ provisionFlag "--headless" = none
    ∧ provisionFlags (unmarshalExec true ["/usr/bin/chrome", "--headless"]).flags = none
    ∧ provisionFlag "--window-size=800,600" = some ("--window-size", "800,600") := by
  refine ⟨rfl, rfl, ?_, rfl, rfl, ?_⟩
  · decide
  · decide

end CaddyChrome
